import Mathlib

/-!
Verification development for the jspsych-datamanager repository.

The repository has two backend adapters for saving jsPsych experiment data:
a Firestore document-store manager (src/packages/firebase/src/firebase.ts)
and a Supabase row-store manager (src/unnamed/part_000), both extending an
abstract DataManager base class.  The definitions below are a shallow
embedding of that code: remote backend calls are modelled by an oracle, a
list of responses consumed one per remote call, and each operation returns
the new manager state, the list of remote calls it issued (the trace), the
remaining oracle, and its outcome (resolved or rejected with the thrown
error message).  Asynchronous methods are modelled as sequential, with a
fuel parameter making the mutual recursion between initializeExperiment and
addTrialData (queue drain and row-not-found recovery) structurally
terminating; fuel exhaustion is an artificial failure that theorems avoid
by supplying enough fuel.
-/

/-- Decides whether the character list `s` starts with the character list `p`. -/
def startsWithChars : List Char → List Char → Bool
  | _, [] => true
  | [], _ :: _ => false
  | a :: as, b :: bs => a == b && startsWithChars as bs

/-- Decides whether the pattern `pat` occurs as a contiguous run inside `s`. -/
def containsChars (pat : List Char) : List Char → Bool
  | [] => startsWithChars [] pat
  | a :: rest => startsWithChars (a :: rest) pat || containsChars pat rest

/-- Model of the JavaScript `String.prototype.includes` check used by the
row-store manager to recognise row-not-found errors. -/
def strIncludes (s sub : String) : Bool := containsChars sub.data s.data

/-- JSON-like values carried inside a trial payload: primitives (strings,
numbers, booleans collapsed to their printed form), arrays, and objects. -/
inductive JValue where
  | prim (s : String)
  | arr (elems : List JValue)
  | obj (fields : List (String × JValue))

/-- The index-keyed mapping built by the `reduce` in `flattenNestedArrays`:
`acc[i] = val` for each element, starting at index `i`.  Array elements are
copied unchanged. -/
def indexKeyedFrom (i : Nat) : List JValue → List (String × JValue)
  | [] => []
  | v :: vs => (toString i, v) :: indexKeyedFrom (i + 1) vs

/-- Index-keyed mapping with numeric-string keys starting at 0. -/
def indexKeyed (vs : List JValue) : List (String × JValue) := indexKeyedFrom 0 vs

/-- Field-by-field body of `flattenNestedArrays` (firebase.ts lines 159-176):
an array value becomes an index-keyed object whose elements are copied as
they are, an object value is flattened recursively, and any other value is
left unchanged. -/
def flattenFields : List (String × JValue) → List (String × JValue)
  | [] => []
  | (k, JValue.arr elems) :: rest => (k, JValue.obj (indexKeyedFrom 0 elems)) :: flattenFields rest
  | (k, JValue.obj fs) :: rest => (k, JValue.obj (flattenFields fs)) :: flattenFields rest
  | (k, JValue.prim s) :: rest => (k, JValue.prim s) :: flattenFields rest

/-- FirebaseManager.flattenNestedArrays: flattens an object field by field;
non-object inputs are returned unchanged (the TypeScript signature only
accepts objects). -/
def flattenNestedArrays : JValue → JValue
  | JValue.obj fields => JValue.obj (flattenFields fields)
  | v => v

/-- True when the value is a primitive. -/
def isPrim : JValue → Bool
  | JValue.prim _ => true
  | _ => false

/-- True when no array occurs anywhere in the field list (the shape the
Firestore schema requires after flattening). -/
def arrFreeF : List (String × JValue) → Bool
  | [] => true
  | (_, JValue.prim _) :: rest => arrFreeF rest
  | (_, JValue.arr _) :: _ => false
  | (_, JValue.obj fs) :: rest => arrFreeF fs && arrFreeF rest

/-- True when every array in the field list (through any depth of object
nesting) holds only primitive elements. -/
def tameF : List (String × JValue) → Bool
  | [] => true
  | (_, JValue.prim _) :: rest => tameF rest
  | (_, JValue.arr es) :: rest => es.all isPrim && tameF rest
  | (_, JValue.obj fs) :: rest => tameF fs && tameF rest

/-- One record per completed experiment trial.  The reserved boolean field
`no_upload` suppresses persistence when it is present and true; `none`
models the field being absent, mirroring the JavaScript `delete`. -/
structure TrialData where
  trial_type : String
  trial_completed : Option String := none
  no_upload : Option Bool := none
  extraFields : List (String × String) := []
deriving DecidableEq

/-- JavaScript object-spread merge of two field lists: fields of `b`
override fields of `a` on key collision. -/
def spread (a b : List (String × String)) : List (String × String) :=
  a.filter (fun p => (List.lookup p.1 b).isNone) ++ b

/-- DataManager constructor metadata: capture date and time defaults with
caller-supplied overrides spread over them. -/
def mkMetadata (date time : String) (overrides : List (String × String)) :
    List (String × String) :=
  spread [("date", date), ("time", time)] overrides

/-- Embedding of a TrialData record as a JSON object, used when the
document-store adapter flattens the payload before sending. -/
def trialToJ (t : TrialData) : JValue :=
  JValue.obj ([("trial_type", JValue.prim t.trial_type)] ++
    (match t.trial_completed with
     | some s => [("trial_completed", JValue.prim s)]
     | none => []) ++
    (match t.no_upload with
     | some b => [("no_upload", JValue.prim (toString b))]
     | none => []) ++
    t.extraFields.map (fun p => (p.1, JValue.prim p.2)))

namespace Firebase

/-- Remote calls issued by the FirebaseManager: a full document set with the
merged initial record, or an arrayUnion update appending one flattened
trial.  Each event carries the oracle outcome of the call (`none` = the
call succeeded, `some msg` = the SDK rejected with that message). -/
inductive FEv where
  | setDocEv (fields : List (String × String)) (trials : List JValue) (e : Option String)
  | updateDocEv (added : JValue) (e : Option String)

/-- FirebaseManager state: the metadata captured at construction and the
private numberOfWrites counter. -/
structure FState where
  metadata : List (String × String)
  numberOfWrites : Nat
deriving DecidableEq

/-- Result of running one FirebaseManager operation: final state, remote
calls issued, remaining oracle, and resolution or rejection. -/
structure FRun where
  state : FState
  trace : List FEv
  oracle : List (Option String)
  outcome : Except String Unit

/-- Consumes the next Firestore response; an exhausted oracle acts as a
network failure. -/
def takeF : List (Option String) → Option String × List (Option String)
  | [] => (some "network request failed", [])
  | r :: rest => (r, rest)

/-- FirebaseManager constructor: captures metadata, zero writes so far. -/
def mkFirebaseManager (metadata : List (String × String)) : FState :=
  { metadata := metadata, numberOfWrites := 0 }

/-- FirebaseManager.initializeExperiment (firebase.ts lines 80-95): setDoc
of metadata, empty trials, and caller overrides; on success the write
counter is incremented; on failure a fresh context error is thrown. -/
def initializeExperiment (st : FState) (additionalData : List (String × String))
    (oracle : List (Option String)) : FRun :=
  match takeF oracle with
  | (some m, o1) =>
    ⟨st, [FEv.setDocEv (spread st.metadata additionalData) [] (some m)], o1,
      Except.error "Failed to initialize experiment document"⟩
  | (none, o1) =>
    ⟨{ st with numberOfWrites := st.numberOfWrites + 1 },
      [FEv.setDocEv (spread st.metadata additionalData) [] none], o1, Except.ok ()⟩

/-- FirebaseManager.addTrialData (firebase.ts lines 102-115): arrayUnion
update of the trials field with the flattened trial record. -/
def addTrialData (st : FState) (t : TrialData) (oracle : List (Option String)) : FRun :=
  match takeF oracle with
  | (some m, o1) =>
    ⟨st, [FEv.updateDocEv (flattenNestedArrays (trialToJ t)) (some m)], o1,
      Except.error "Failed to store trial data"⟩
  | (none, o1) =>
    ⟨{ st with numberOfWrites := st.numberOfWrites + 1 },
      [FEv.updateDocEv (flattenNestedArrays (trialToJ t)) none], o1, Except.ok ()⟩

/-- FirebaseManager.getNumberOfOperations. -/
def getNumberOfOperations (st : FState) : Nat := st.numberOfWrites

/-- FirebaseManager.createDataUpdateCallback (firebase.ts lines 129-142):
if the reserved no_upload flag is truthy it is deleted and the record is
returned with no remote call; otherwise addTrialData runs fire-and-forget
(its rejection is caught and logged, never propagated) and the record is
returned unchanged. -/
def createDataUpdateCallback (st : FState) (oracle : List (Option String))
    (data : TrialData) : TrialData × FRun :=
  if data.no_upload = some true then
    ({ data with no_upload := none }, ⟨st, [], oracle, Except.ok ()⟩)
  else
    let r := addTrialData st data oracle
    (data, { r with outcome := Except.ok () })

/-- FirebaseManager.createFinishCallback: reports the final write count. -/
def createFinishCallback (st : FState) : Nat := getNumberOfOperations st

end Firebase

namespace Supabase

/-- A Supabase (PostgREST) error object: machine-readable code plus human
message.  PGRST116 is the code for a missing row on `.single()`. -/
structure SbError where
  code : String
  message : String
deriving DecidableEq

/-- One remote response supplied by the oracle: an insert response (error
plus returned rows, each row modelled by its optional generated id), an
update response, or a select response carrying the current trials column. -/
inductive Resp where
  | insertR (e : Option SbError) (rows : List (Option String))
  | updateR (e : Option SbError)
  | selectR (e : Option SbError) (trials : List TrialData)
deriving DecidableEq

/-- Synthetic error used when the oracle runs out or a response of the
wrong kind is consumed: the network layer failed. -/
def netErr : SbError := { code := "NETWORK", message := "network request failed" }

/-- Consumes the next response as an insert result. -/
def takeInsert : List Resp → (Option SbError × List (Option String)) × List Resp
  | Resp.insertR e rows :: rest => ((e, rows), rest)
  | _ :: rest => ((some netErr, []), rest)
  | [] => ((some netErr, []), [])

/-- Consumes the next response as an update result. -/
def takeUpdate : List Resp → Option SbError × List Resp
  | Resp.updateR e :: rest => (e, rest)
  | _ :: rest => (some netErr, rest)
  | [] => (some netErr, [])

/-- Consumes the next response as a select result. -/
def takeSelect : List Resp → (Option SbError × List TrialData) × List Resp
  | Resp.selectR e ts :: rest => ((e, ts), rest)
  | _ :: rest => ((some netErr, []), rest)
  | [] => ((some netErr, []), [])

/-- The body of a row update or insert: the merged scalar fields, the
trials column when the call writes it (`none` = the column is untouched),
and the refreshed updated_at timestamp when the call sets one. -/
structure Payload where
  fields : List (String × String)
  trials : Option (List TrialData)
  updated_at : Option String
deriving DecidableEq

/-- Remote calls issued by the SupabaseManager, with their oracle outcome,
plus a marker for each entry of the remote trial-add path (the code after
the queue checks of addTrialData). -/
inductive Ev where
  | insertEv (p : Payload) (e : Option SbError) (gotId : Bool)
  | updateEv (id : String) (p : Payload) (e : Option SbError)
  | selectEv (id : String) (e : Option SbError)
  | attemptEv (t : TrialData)
deriving DecidableEq

/-- SupabaseManager state: the captured metadata and the private fields
rowId, numberOfOperations, initialized, and pendingTrials. -/
structure SState where
  metadata : List (String × String)
  rowId : Option String
  numberOfOperations : Nat
  initialized : Bool
  pendingTrials : List TrialData
deriving DecidableEq

/-- Result of running one SupabaseManager operation. -/
structure RunResult where
  state : SState
  trace : List Ev
  oracle : List Resp
  outcome : Except String Unit

/-- JavaScript truthiness of the optional rowId string: absent and empty
both count as missing. -/
def truthyStr : Option String → Bool
  | some s => !s.isEmpty
  | none => false

/-- The check `data && data.length > 0 && data[0].id` on the insert
response: the generated id of the first returned row, when present and
truthy. -/
def extractId : List (Option String) → Option String
  | some id :: _ => if id.isEmpty then none else some id
  | _ => none

/-- SupabaseManager constructor (src/unnamed/part_000 lines 58-73): stores
the metadata and the optional caller-supplied row id; a truthy row id marks
the manager as initialized with no remote call. -/
def mkManager (metadata : List (String × String)) (rowId : Option String) : SState :=
  { metadata := metadata, rowId := rowId, numberOfOperations := 0,
    initialized := truthyStr rowId, pendingTrials := [] }

/-- The internal entry points of the manager: initializeExperiment with its
additionalData, addTrialData with its trial, the pending-queue drain loop
of initializeExperiment, and the catch block of addTrialData (lines
221-235) entered with the events already issued and the thrown message. -/
inductive Call where
  | initC (additionalData : List (String × String))
  | addC (t : TrialData)
  | drainC (ts : List TrialData)
  | catchC (t : TrialData) (tr : List Ev) (msg : String)

/-- Events already issued before a catch block runs; they stay in the trace
even if fuel runs out inside the block. -/
def callTr : Call → List Ev
  | Call.catchC _ tr _ => tr
  | _ => []

/-- Interpreter for the SupabaseManager methods (src/unnamed/part_000 lines
80-236), structurally recursive on fuel so that all runs compute.

initC: when initialized with a truthy rowId, one update of the existing row
with metadata, overrides and a refreshed updated_at, not touching trials
(lines 83-104); otherwise one insert of metadata, empty trials and
overrides, then on a returned id the pending queue is snapshotted, cleared
and drained through addTrialData with every per-trial rejection caught, and
the operation counter is incremented after the drain (lines 106-148); any
error escaping the try block is rethrown wrapped with context (lines
149-152).

addC: not initialized means the trial is appended to pendingTrials and the
call resolves with no remote call (lines 162-166); initialized without a
truthy rowId means the trial is queued, initialized is cleared and
initializeExperiment is invoked, its outcome passing through unwrapped
(lines 168-174); otherwise the trial-add path runs: select of the trials
column, then an update writing the fetched trials plus the new one and a
refreshed updated_at (lines 176-220).  A select error with code PGRST116
clears initialized and rowId, re-queues the trial and invokes
initializeExperiment inside the try block (lines 189-196); other select
errors and update errors are thrown and reach the catch block.

catchC: when the thrown message contains the text "not found" the same
recovery runs (clear identity, re-queue, reinitialize) with the recovery
outcome passing through; otherwise the error is rethrown wrapped (lines
221-235). -/
def exec : Nat → Call → SState → String → List Resp → RunResult
  | 0, c, st, _, oracle => ⟨st, callTr c, oracle, Except.error "fuel exhausted"⟩
  | fuel + 1, c, st, now, oracle =>
    match c with
    | Call.initC additionalData =>
      if st.initialized && truthyStr st.rowId then
        let rid := st.rowId.getD ""
        let p : Payload := ⟨spread st.metadata additionalData, none, some now⟩
        match takeUpdate oracle with
        | (some err, o1) =>
          ⟨st, [Ev.updateEv rid p (some err)], o1,
            Except.error ("Failed to initialize experiment data: " ++ err.message)⟩
        | (none, o1) =>
          ⟨{ st with numberOfOperations := st.numberOfOperations + 1 },
            [Ev.updateEv rid p none], o1, Except.ok ()⟩
      else
        let p : Payload := ⟨spread st.metadata additionalData, some [], none⟩
        match takeInsert oracle with
        | ((some err, _), o1) =>
          ⟨st, [Ev.insertEv p (some err) false], o1,
            Except.error ("Failed to initialize experiment data: " ++ err.message)⟩
        | ((none, rows), o1) =>
          match extractId rows with
          | none =>
            ⟨st, [Ev.insertEv p none false], o1,
              Except.error
                "Failed to initialize experiment data: Failed to get row ID from insert operation"⟩
          | some rid =>
            let st1 := { st with rowId := some rid, initialized := true }
            if st1.pendingTrials.isEmpty then
              ⟨{ st1 with numberOfOperations := st1.numberOfOperations + 1 },
                [Ev.insertEv p none true], o1, Except.ok ()⟩
            else
              let st2 := { st1 with pendingTrials := [] }
              let r := exec fuel (Call.drainC st1.pendingTrials) st2 now o1
              ⟨{ r.state with numberOfOperations := r.state.numberOfOperations + 1 },
                Ev.insertEv p none true :: r.trace, r.oracle, Except.ok ()⟩
    | Call.drainC [] => ⟨st, [], oracle, Except.ok ()⟩
    | Call.drainC (t :: ts) =>
      let r := exec fuel (Call.addC t) st now oracle
      let r2 := exec fuel (Call.drainC ts) r.state now r.oracle
      ⟨r2.state, r.trace ++ r2.trace, r2.oracle, Except.ok ()⟩
    | Call.addC t =>
      if !st.initialized then
        ⟨{ st with pendingTrials := st.pendingTrials ++ [t] }, [], oracle, Except.ok ()⟩
      else if !truthyStr st.rowId then
        let st1 := { st with pendingTrials := st.pendingTrials ++ [t], initialized := false }
        exec fuel (Call.initC []) st1 now oracle
      else
        let rid := st.rowId.getD ""
        match takeSelect oracle with
        | ((some ferr, _), o1) =>
          if ferr.code == "PGRST116" then
            let st1 := { st with
                         initialized := false
                         rowId := none
                         pendingTrials := st.pendingTrials ++ [t] }
            let r := exec fuel (Call.initC []) st1 now o1
            match r.outcome with
            | Except.ok _ =>
              ⟨r.state, Ev.attemptEv t :: Ev.selectEv rid (some ferr) :: r.trace,
                r.oracle, Except.ok ()⟩
            | Except.error msg =>
              exec fuel
                (Call.catchC t (Ev.attemptEv t :: Ev.selectEv rid (some ferr) :: r.trace) msg)
                r.state now r.oracle
          else
            exec fuel (Call.catchC t [Ev.attemptEv t, Ev.selectEv rid (some ferr)] ferr.message)
              st now o1
        | ((none, fetched), o1) =>
          let up : Payload := ⟨[], some (fetched ++ [t]), some now⟩
          match takeUpdate o1 with
          | (some uerr, o2) =>
            exec fuel
              (Call.catchC t
                [Ev.attemptEv t, Ev.selectEv rid none, Ev.updateEv rid up (some uerr)]
                uerr.message)
              st now o2
          | (none, o2) =>
            ⟨{ st with numberOfOperations := st.numberOfOperations + 1 },
              [Ev.attemptEv t, Ev.selectEv rid none, Ev.updateEv rid up none], o2, Except.ok ()⟩
    | Call.catchC t tr msg =>
      if strIncludes msg "not found" then
        let st1 := { st with
                     initialized := false
                     rowId := none
                     pendingTrials := st.pendingTrials ++ [t] }
        let r := exec fuel (Call.initC []) st1 now oracle
        ⟨r.state, tr ++ r.trace, r.oracle, r.outcome⟩
      else
        ⟨st, tr, oracle, Except.error ("Failed to store trial data: " ++ msg)⟩

/-- SupabaseManager.initializeExperiment. -/
def initializeExperiment (fuel : Nat) (st : SState) (additionalData : List (String × String))
    (now : String) (oracle : List Resp) : RunResult :=
  exec fuel (Call.initC additionalData) st now oracle

/-- SupabaseManager.addTrialData. -/
def addTrialData (fuel : Nat) (st : SState) (t : TrialData) (now : String)
    (oracle : List Resp) : RunResult :=
  exec fuel (Call.addC t) st now oracle

/-- SupabaseManager.getNumberOfOperations. -/
def getNumberOfOperations (st : SState) : Nat := st.numberOfOperations

/-- SupabaseManager.createDataUpdateCallback (lines 250-263): a truthy
reserved no_upload flag is deleted and the record returned with no remote
call; otherwise addTrialData runs fire-and-forget, its rejection caught and
logged, and the record is returned unchanged. -/
def createDataUpdateCallback (fuel : Nat) (st : SState) (now : String) (oracle : List Resp)
    (data : TrialData) : TrialData × RunResult :=
  if data.no_upload = some true then
    ({ data with no_upload := none }, ⟨st, [], oracle, Except.ok ()⟩)
  else
    let r := addTrialData fuel st data now oracle
    (data, { r with outcome := Except.ok () })

/-- SupabaseManager.createFinishCallback (lines 269-278): reports the final
operation count and the number of trials left unprocessed in the queue. -/
def createFinishCallback (st : SState) : Nat × Nat :=
  (getNumberOfOperations st, st.pendingTrials.length)

/-- Harness running a sequence of addTrialData calls one after another,
threading state and oracle; traces are concatenated. -/
def runAdds (fuel : Nat) (st : SState) : List TrialData → String → List Resp → RunResult
  | [], _, oracle => ⟨st, [], oracle, Except.ok ()⟩
  | t :: ts, now, oracle =>
    let r := addTrialData fuel st t now oracle
    let r2 := runAdds fuel r.state ts now r.oracle
    ⟨r2.state, r.trace ++ r2.trace, r2.oracle, Except.ok ()⟩

/-- True for the events whose completion increments numberOfOperations: an
insert that succeeded and returned an id, or an update that succeeded. -/
def evSucc : Ev → Bool
  | Ev.insertEv _ none true => true
  | Ev.updateEv _ _ none => true
  | _ => false

/-- Number of counted (successful) write operations in a trace. -/
def succCount : List Ev → Nat
  | [] => 0
  | e :: rest => (if evSucc e then 1 else 0) + succCount rest

/-- The trials given to the remote trial-add path, in order. -/
def attemptsOf : List Ev → List TrialData
  | [] => []
  | Ev.attemptEv t :: rest => t :: attemptsOf rest
  | _ :: rest => attemptsOf rest

/-- Number of insert calls in a trace. -/
def insertCount : List Ev → Nat
  | [] => 0
  | Ev.insertEv _ _ _ :: rest => insertCount rest + 1
  | _ :: rest => insertCount rest

/-- The trials columns written by the update calls of a trace, in order. -/
def updateTrialsOf : List Ev → List (List TrialData)
  | [] => []
  | Ev.updateEv _ p _ :: rest =>
    (match p.trials with
     | some ts => [ts]
     | none => []) ++ updateTrialsOf rest
  | _ :: rest => updateTrialsOf rest

/-- Number of successful updates (persisted trial writes) in a trace. -/
def updOkCount : List Ev → Nat
  | [] => 0
  | Ev.updateEv _ _ none :: rest => updOkCount rest + 1
  | _ :: rest => updOkCount rest

/-- An error is benign when it does not trigger the row-not-found recovery:
its code is not PGRST116 and its message does not contain "not found". -/
def benignErr (e : SbError) : Bool :=
  !(e.code == "PGRST116") && !(strIncludes e.message "not found")

/-- A response is benign when any error it carries is benign. -/
def benignResp : Resp → Bool
  | Resp.selectR (some e) _ => benignErr e
  | Resp.updateR (some e) => benignErr e
  | _ => true

/-- An oracle is benign when all its responses are. -/
def benignO (o : List Resp) : Prop := ∀ r ∈ o, benignResp r = true

instance (o : List Resp) : Decidable (benignO o) :=
  List.decidableBAll (fun r => benignResp r = true) o

/-- The message of a rejected outcome, empty for a resolved one. -/
def errMsg : Except String Unit → String
  | Except.ok _ => ""
  | Except.error m => m

/-- How the addTrialData catch block transforms an outcome that is not a
row-not-found recovery: resolutions pass, rejections are wrapped. -/
def mapStoreErr : Except String Unit → Except String Unit
  | Except.ok _ => Except.ok ()
  | Except.error m => Except.error ("Failed to store trial data: " ++ m)

/-- The state after the row-not-found recovery of addTrialData clears the
identity and re-queues the trial (lines 190-193): initialized false, rowId
cleared, the trial appended to the pending queue. -/
def requeued (st : SState) (t : TrialData) : SState :=
  { st with
    initialized := false
    rowId := none
    pendingTrials := st.pendingTrials ++ [t] }

/-- The pending-queue drain loop of initializeExperiment (lines 130-141)
run on its own against a list of snapshot trials. -/
def drainPendingTrials (fuel : Nat) (st : SState) (ts : List TrialData) (now : String)
    (oracle : List Resp) : RunResult :=
  exec fuel (Call.drainC ts) st now oracle

end Supabase

open Supabase

/-- A plain trial record with trial type t1. -/
def tT1 : TrialData := { trial_type := "t1" }

/-- A plain trial record with trial type t2. -/
def tT2 : TrialData := { trial_type := "t2" }

/-- A trial record with a truthy no_upload flag. -/
def tSkip : TrialData := { trial_type := "t1", no_upload := some true }

/-- A row-store manager constructed with no fixed row id. -/
def st0 : SState := mkManager [] none

/-- A row-store manager constructed with the fixed row id r1. -/
def rSt : SState := mkManager [] (some "r1")

/-- The PostgREST row-not-found error returned by `.single()`. -/
def pgErr : SbError := { code := "PGRST116", message := "JSON object requested, multiple (or no) rows returned" }

/-- A generic benign remote failure. -/
def bErr : SbError := { code := "500", message := "boom" }

/-- Oracle for the specified operation-count scenario: the insert returns a
row id, then both drained trial adds fetch and update successfully. -/
def scOracle : List Resp :=
  [Resp.insertR none [some "r1"], Resp.selectR none [], Resp.updateR none,
   Resp.selectR none [tT1], Resp.updateR none]

/-- Oracle consumed by a successful row-recreation: insert returning a new
id, then one drained fetch and update. -/
def recOracle : List Resp :=
  [Resp.insertR none [some "r2"], Resp.selectR none [], Resp.updateR none]

/-- A firebase manager with empty metadata. -/
def fSt0 : Firebase.FState := Firebase.mkFirebaseManager []

/-- The trial payload of the flattening example in the specification,
`obj (a : [1, [2,3]], b : "x")`. -/
def cexInput : JValue :=
  JValue.obj [("a", JValue.arr [JValue.prim "1", JValue.arr [JValue.prim "2", JValue.prim "3"]]),
              ("b", JValue.prim "x")]

/-- What the code actually produces for cexInput: the outer array becomes
index-keyed, the inner array is copied unchanged. -/
def cexActualOutput : JValue :=
  JValue.obj [("a", JValue.obj [("0", JValue.prim "1"),
                                ("1", JValue.arr [JValue.prim "2", JValue.prim "3"])]),
              ("b", JValue.prim "x")]

/-- What the specification claims for cexInput: both arrays index-keyed. -/
def cexSpecOutput : JValue :=
  JValue.obj [("a", JValue.obj [("0", JValue.prim "1"),
                                ("1", JValue.obj [("0", JValue.prim "2"), ("1", JValue.prim "3")])]),
              ("b", JValue.prim "x")]

/-- A field list whose arrays hold only primitives, used to witness the
flattening theorem. -/
def wFs : List (String × JValue) :=
  [("a", JValue.arr [JValue.prim "1", JValue.prim "2"]),
   ("b", JValue.obj [("c", JValue.arr [JValue.prim "3"]), ("d", JValue.prim "y")])]

/-- A benign oracle tail: one successful fetch and one successful update. -/
def benRest : List Resp := [Resp.selectR none [], Resp.updateR none]

/-- A drain oracle in which the first drained trial fails its update with a
benign error and the second drained trial succeeds. -/
def c8Oracle : List Resp :=
  [Resp.selectR none [], Resp.updateR (some bErr), Resp.selectR none [], Resp.updateR none]

theorem arrFreeF_indexKeyedFrom (i : Nat) (es : List JValue)
    (h : ∀ x ∈ es, isPrim x = true) :
    arrFreeF (indexKeyedFrom i es) = true := by
  induction es generalizing i with
  | nil => simp [indexKeyedFrom, arrFreeF]
  | cons v vs ih =>
    have hv := h v (List.mem_cons_self v vs)
    have ht := ih (i + 1) (fun x hx => h x (List.mem_cons_of_mem v hx))
    cases v with
    | prim s => simp [indexKeyedFrom, arrFreeF, ht]
    | arr es2 => simp [isPrim] at hv
    | obj fs => simp [isPrim] at hv

theorem flattenFields_arrFree : ∀ (fs : List (String × JValue)), tameF fs = true →
    arrFreeF (flattenFields fs) = true
  | [], _ => by simp [flattenFields, arrFreeF]
  | (k, JValue.prim s) :: rest, h => by
    have hr := flattenFields_arrFree rest (by simpa [tameF] using h)
    simp [flattenFields, arrFreeF, hr]
  | (k, JValue.arr es) :: rest, h => by
    simp [tameF, List.all_eq_true] at h
    have h1 := arrFreeF_indexKeyedFrom 0 es h.1
    have hr := flattenFields_arrFree rest h.2
    simp [flattenFields, arrFreeF, h1, hr]
  | (k, JValue.obj fs) :: rest, h => by
    simp [tameF] at h
    have h1 := flattenFields_arrFree fs h.1
    have hr := flattenFields_arrFree rest h.2
    simp [flattenFields, arrFreeF, h1, hr]

/-- Claim C1, counterexample: the flattening does not convert an array
nested directly inside an array, so on the payload of the claim it differs
from the output the claim specifies. -/
theorem claim_C1_counterexample : flattenNestedArrays cexInput ≠ cexSpecOutput := by
  intro h
  simp [flattenNestedArrays, cexInput, cexSpecOutput, flattenFields, indexKeyedFrom] at h

/-- Claim C1, amended: the pre-send flattening converts every array that
occurs as an object-field value, at any depth through nested objects, into
an index-keyed mapping with numeric-string keys, and leaves non-array
non-object values unchanged; but the elements of a converted array are
copied as they are, so an array nested directly inside an array is not
converted: the example payload flattens to an index-keyed outer object
whose key 1 still holds the inner array.  In particular, when every array
of the input object holds only primitive elements, the output is entirely
array-free. -/
theorem claim_C1 :
    flattenNestedArrays cexInput = cexActualOutput ∧
    (∀ fs : List (String × JValue), tameF fs = true →
      arrFreeF (flattenFields fs) = true) := by
  constructor
  · simp [flattenNestedArrays, cexInput, cexActualOutput, flattenFields, indexKeyedFrom]
    decide
  · exact flattenFields_arrFree

theorem claim_C1_witness :
    tameF wFs = true ∧ arrFreeF (flattenFields wFs) = true :=
  ⟨by simp [wFs, tameF, isPrim], claim_C1.2 wFs (by simp [wFs, tameF, isPrim])⟩

namespace Supabase

theorem succCount_append (a b : List Ev) :
    succCount (a ++ b) = succCount a + succCount b := by
  induction a with
  | nil => simp [succCount]
  | cons e rest ih => simp [succCount, ih]; omega

theorem attemptsOf_append (a b : List Ev) :
    attemptsOf (a ++ b) = attemptsOf a ++ attemptsOf b := by
  induction a with
  | nil => simp [attemptsOf]
  | cons e rest ih => cases e <;> simp [attemptsOf, ih]

theorem benignErr_netErr : benignErr netErr = true := by decide

theorem takeSelect_tail (o : List Resp) : (takeSelect o).2 = o.tail := by
  cases o with
  | nil => rfl
  | cons r rest => cases r <;> rfl

theorem takeUpdate_tail (o : List Resp) : (takeUpdate o).2 = o.tail := by
  cases o with
  | nil => rfl
  | cons r rest => cases r <;> rfl

theorem takeInsert_tail (o : List Resp) : (takeInsert o).2 = o.tail := by
  cases o with
  | nil => rfl
  | cons r rest => cases r <;> rfl

theorem benignO_tail (o : List Resp) (h : benignO o) : benignO o.tail := by
  cases o with
  | nil => exact h
  | cons r rest => exact fun x hx => h x (List.mem_cons_of_mem r hx)

theorem extractId_truthy (rows : List (Option String)) (rid : String)
    (h : extractId rows = some rid) : truthyStr (some rid) = true := by
  cases rows with
  | nil => simp [extractId] at h
  | cons r rest =>
    cases r with
    | none => simp [extractId] at h
    | some id =>
      by_cases hid : id.isEmpty
      · simp [extractId, hid] at h
      · simp [extractId, hid] at h
        subst h
        simp [truthyStr, hid]

theorem addTrial_benign (g : Nat) (st : SState) (t : TrialData) (now : String) (o : List Resp)
    (hin : st.initialized = true) (hrow : truthyStr st.rowId = true) (hb : benignO o) :
    (addTrialData (g + 2) st t now o).state.initialized = true ∧
    (addTrialData (g + 2) st t now o).state.rowId = st.rowId ∧
    (addTrialData (g + 2) st t now o).state.pendingTrials = st.pendingTrials ∧
    (addTrialData (g + 2) st t now o).state.metadata = st.metadata ∧
    attemptsOf (addTrialData (g + 2) st t now o).trace = [t] ∧
    benignO (addTrialData (g + 2) st t now o).oracle := by
  have hnet1 : (netErr.code == "PGRST116") = false := by decide
  have hnet2 : strIncludes netErr.message "not found" = false := by decide
  cases o with
  | nil =>
    simp [addTrialData, exec, hin, hrow, takeSelect, hnet1, hnet2, attemptsOf, benignO]
  | cons r rest =>
    have hrest : benignO rest := benignO_tail _ hb
    cases r with
    | insertR e rows =>
      simp [addTrialData, exec, hin, hrow, takeSelect, hnet1, hnet2, attemptsOf]
      exact hrest
    | updateR e =>
      simp [addTrialData, exec, hin, hrow, takeSelect, hnet1, hnet2, attemptsOf]
      exact hrest
    | selectR se fetched =>
      cases se with
      | some ferr =>
        have hbe := hb _ (List.mem_cons_self _ _)
        simp only [benignResp, benignErr, Bool.and_eq_true, Bool.not_eq_true'] at hbe
        simp [addTrialData, exec, hin, hrow, takeSelect, hbe.1, hbe.2, attemptsOf]
        exact hrest
      | none =>
        cases rest with
        | nil =>
          simp [addTrialData, exec, hin, hrow, takeSelect, takeUpdate, hnet1, hnet2,
            attemptsOf, benignO]
        | cons r2 rest2 =>
          have hrest2 : benignO rest2 := benignO_tail _ hrest
          cases r2 with
          | insertR e2 rows2 =>
            simp [addTrialData, exec, hin, hrow, takeSelect, takeUpdate, hnet1, hnet2,
              attemptsOf]
            exact hrest2
          | selectR e2 f2 =>
            simp [addTrialData, exec, hin, hrow, takeSelect, takeUpdate, hnet1, hnet2,
              attemptsOf]
            exact hrest2
          | updateR e2 =>
            cases e2 with
            | some uerr =>
              have hbe := hrest _ (List.mem_cons_self _ _)
              simp only [benignResp, benignErr, Bool.and_eq_true, Bool.not_eq_true'] at hbe
              simp [addTrialData, exec, hin, hrow, takeSelect, takeUpdate, hbe.2, attemptsOf]
              exact hrest2
            | none =>
              simp [addTrialData, exec, hin, hrow, takeSelect, takeUpdate, attemptsOf]
              exact hrest2

theorem drain_benign : ∀ (ts : List TrialData) (f : Nat) (st : SState) (now : String)
    (o : List Resp), ts.length + 2 ≤ f → st.initialized = true →
    truthyStr st.rowId = true → benignO o →
    (exec f (Call.drainC ts) st now o).state.initialized = true ∧
    (exec f (Call.drainC ts) st now o).state.rowId = st.rowId ∧
    (exec f (Call.drainC ts) st now o).state.pendingTrials = st.pendingTrials ∧
    (exec f (Call.drainC ts) st now o).state.metadata = st.metadata ∧
    attemptsOf (exec f (Call.drainC ts) st now o).trace = ts ∧
    benignO (exec f (Call.drainC ts) st now o).oracle ∧
    (exec f (Call.drainC ts) st now o).outcome = Except.ok () := by
  intro ts
  induction ts with
  | nil =>
    intro f st now o hf hin hrow hb
    obtain ⟨f1, rfl⟩ : ∃ f1, f = f1 + 1 := ⟨f - 1, by omega⟩
    simp [exec, attemptsOf, hin]
    exact hb
  | cons t ts ih =>
    intro f st now o hf hin hrow hb
    simp only [List.length_cons] at hf
    obtain ⟨f1, rfl⟩ : ∃ f1, f = f1 + 1 := ⟨f - 1, by omega⟩
    obtain ⟨g, hg⟩ : ∃ g, f1 = g + 2 := ⟨f1 - 2, by omega⟩
    have ha := addTrial_benign g st t now o hin hrow hb
    rw [← hg] at ha
    simp only [addTrialData] at ha
    obtain ⟨ha1, ha2, ha3, ha4, ha5, ha6⟩ := ha
    have hrow2 : truthyStr (exec f1 (Call.addC t) st now o).state.rowId = true := by
      rw [ha2]; exact hrow
    have hd := ih f1 (exec f1 (Call.addC t) st now o).state now
      (exec f1 (Call.addC t) st now o).oracle
      (by omega) ha1 hrow2 ha6
    obtain ⟨hd1, hd2, hd3, hd4, hd5, hd6, hd7⟩ := hd
    simp only [exec]
    refine ⟨hd1, hd2.trans ha2, hd3.trans ha3, hd4.trans ha4, ?_, hd6, by trivial⟩
    rw [attemptsOf_append, ha5, hd5]
    rfl

theorem runAdds_uninit : ∀ (ts : List TrialData) (f : Nat) (st : SState) (now : String)
    (o : List Resp), 1 ≤ f → st.initialized = false →
    runAdds f st ts now o =
      ⟨{ st with pendingTrials := st.pendingTrials ++ ts }, [], o, Except.ok ()⟩ := by
  intro ts
  induction ts with
  | nil =>
    intro f st now o hf hin
    simp [runAdds]
  | cons t ts ih =>
    intro f st now o hf hin
    obtain ⟨f1, rfl⟩ : ∃ f1, f = f1 + 1 := ⟨f - 1, by omega⟩
    have hr := ih (f1 + 1) { st with pendingTrials := st.pendingTrials ++ [t] } now o
      (by omega) hin
    simp [hin] at hr
    simp [runAdds, addTrialData, exec, hin, hr, List.append_assoc]

theorem init_insert_benign (g : Nat) (st : SState) (now : String)
    (rows : List (Option String)) (rid : String) (rest : List Resp)
    (hg : st.pendingTrials.length + 2 ≤ g) (hin : st.initialized = false)
    (hrows : extractId rows = some rid) (hb : benignO rest) :
    attemptsOf (initializeExperiment (g + 1) st [] now
        (Resp.insertR none rows :: rest)).trace = st.pendingTrials ∧
    (initializeExperiment (g + 1) st [] now
        (Resp.insertR none rows :: rest)).state.pendingTrials = [] ∧
    (initializeExperiment (g + 1) st [] now
        (Resp.insertR none rows :: rest)).state.initialized = true ∧
    (initializeExperiment (g + 1) st [] now
        (Resp.insertR none rows :: rest)).state.rowId = some rid ∧
    (initializeExperiment (g + 1) st [] now
        (Resp.insertR none rows :: rest)).outcome = Except.ok () := by
  have htr := extractId_truthy rows rid hrows
  by_cases hemp : st.pendingTrials.isEmpty
  · have hpe : st.pendingTrials = [] := by
      cases hp : st.pendingTrials with
      | nil => rfl
      | cons a b => rw [hp] at hemp; simp [List.isEmpty] at hemp
    simp [initializeExperiment, exec, hin, takeInsert, hrows, hpe, attemptsOf]
  · have hd := drain_benign st.pendingTrials g
      { st with rowId := some rid, initialized := true, pendingTrials := [] } now rest
      hg rfl htr hb
    obtain ⟨hd1, hd2, hd3, hd4, hd5, hd6, hd7⟩ := hd
    simp only [Bool.not_eq_true] at hemp
    simp [initializeExperiment, exec, hin, takeInsert, hrows, hemp, attemptsOf,
      hd1, hd2, hd3, hd4, hd5, hd7]

theorem exec_ops : ∀ (f : Nat) (c : Call) (st : SState) (now : String) (o : List Resp),
    (exec f c st now o).state.numberOfOperations + succCount (callTr c) =
      st.numberOfOperations + succCount (exec f c st now o).trace := by
  intro f
  induction f with
  | zero => intro c st now o; simp [exec]
  | succ f ih =>
    intro c st now o
    cases c with
    | initC ad =>
      by_cases h1 : (st.initialized && truthyStr st.rowId) = true
      · rcases hu : takeUpdate o with ⟨e, o1⟩
        cases e with
        | some err => simp [exec, h1, hu, succCount, evSucc, callTr]
        | none => simp [exec, h1, hu, succCount, evSucc, callTr]
      · rcases hi : takeInsert o with ⟨⟨e, rows⟩, o1⟩
        cases e with
        | some err => simp [exec, h1, hi, succCount, evSucc, callTr]
        | none =>
          rcases hx : extractId rows with _ | rid
          · simp [exec, h1, hi, hx, succCount, evSucc, callTr]
          · by_cases hemp : st.pendingTrials.isEmpty
            · simp [exec, h1, hi, hx, hemp, succCount, evSucc, callTr]
            · have hD := ih (Call.drainC st.pendingTrials)
                { st with rowId := some rid, initialized := true, pendingTrials := [] } now o1
              simp [callTr, succCount] at hD
              simp [exec, h1, hi, hx, hemp, succCount, evSucc, callTr]
              omega
    | drainC ts =>
      cases ts with
      | nil => simp [exec, succCount, callTr]
      | cons t rest =>
        have hA := ih (Call.addC t) st now o
        have hD := ih (Call.drainC rest) (exec f (Call.addC t) st now o).state now
          (exec f (Call.addC t) st now o).oracle
        simp [callTr, succCount] at hA hD
        simp [exec, callTr, succCount, succCount_append]
        omega
    | addC t =>
      cases hb1 : st.initialized with
      | false => simp [exec, hb1, succCount, callTr]
      | true =>
        cases hb2 : truthyStr st.rowId with
        | false =>
          have hA := ih (Call.initC [])
            { st with pendingTrials := st.pendingTrials ++ [t], initialized := false } now o
          simp [callTr, succCount] at hA
          simp [exec, hb1, hb2, callTr, succCount]
          omega
        | true =>
          rcases hs : takeSelect o with ⟨⟨se, fetched⟩, o1⟩
          cases se with
          | some ferr =>
            by_cases hc : (ferr.code == "PGRST116") = true
            · have hA := ih (Call.initC []) (requeued st t) now o1
              simp [callTr, succCount, requeued] at hA
              rcases ho : (exec f (Call.initC []) (requeued st t) now o1).outcome with msg | u
              · have hC := ih (Call.catchC t
                  (Ev.attemptEv t :: Ev.selectEv (st.rowId.getD "") (some ferr) ::
                    (exec f (Call.initC []) (requeued st t) now o1).trace) msg)
                  (exec f (Call.initC []) (requeued st t) now o1).state now
                  (exec f (Call.initC []) (requeued st t) now o1).oracle
                simp [callTr, succCount, evSucc, requeued] at hC
                simp [requeued] at ho
                simp [exec, hb1, hb2, hs, hc, ho, callTr, succCount, evSucc]
                omega
              · simp [requeued] at ho
                simp [exec, hb1, hb2, hs, hc, ho, callTr, succCount, evSucc]
                omega
            · have hC := ih (Call.catchC t
                  [Ev.attemptEv t, Ev.selectEv (st.rowId.getD "") (some ferr)] ferr.message)
                st now o1
              simp [callTr, succCount, evSucc] at hC
              simp [exec, hb1, hb2, hs, hc, callTr, succCount, evSucc]
              omega
          | none =>
            rcases hu : takeUpdate o1 with ⟨ue, o2⟩
            cases ue with
            | some uerr =>
              have hC := ih (Call.catchC t
                  [Ev.attemptEv t, Ev.selectEv (st.rowId.getD "") none,
                   Ev.updateEv (st.rowId.getD "")
                     ⟨[], some (fetched ++ [t]), some now⟩ (some uerr)] uerr.message)
                st now o2
              simp [callTr, succCount, evSucc] at hC
              simp [exec, hb1, hb2, hs, hu, callTr, succCount, evSucc]
              omega
            | none => simp [exec, hb1, hb2, hs, hu, callTr, succCount, evSucc]
    | catchC t tr msg =>
      by_cases hni : strIncludes msg "not found" = true
      · have hA := ih (Call.initC []) (requeued st t) now o
        simp [callTr, succCount, requeued] at hA
        simp [exec, hni, callTr, succCount, succCount_append]
        omega
      · simp [exec, hni, callTr, succCount]

end Supabase

/-- Claim C2: every addTrialData call made on a row-store manager that is
not initialized appends its trial to the pending queue and resolves
immediately with no remote call; and once the insert of
initializeExperiment succeeds with a generated id (responses after it
benign), every queued entry is given to the trial-add path exactly once,
in original FIFO order, leaving the queue empty. -/
theorem claim_C2 (f g : Nat) (st : SState) (ts : List TrialData) (now : String)
    (oracle rest : List Resp) (rows : List (Option String)) (rid : String)
    (hf : 1 ≤ f) (hin : st.initialized = false)
    (hg : (st.pendingTrials ++ ts).length + 2 ≤ g)
    (hrows : extractId rows = some rid) (hben : benignO rest) :
    (runAdds f st ts now oracle).state =
      { st with pendingTrials := st.pendingTrials ++ ts } ∧
    (runAdds f st ts now oracle).trace = [] ∧
    (runAdds f st ts now oracle).oracle = oracle ∧
    attemptsOf (initializeExperiment (g + 1) (runAdds f st ts now oracle).state [] now
        (Resp.insertR none rows :: rest)).trace = st.pendingTrials ++ ts ∧
    (initializeExperiment (g + 1) (runAdds f st ts now oracle).state [] now
        (Resp.insertR none rows :: rest)).state.pendingTrials = [] ∧
    (initializeExperiment (g + 1) (runAdds f st ts now oracle).state [] now
        (Resp.insertR none rows :: rest)).outcome = Except.ok () := by
  have hra := runAdds_uninit ts f st now oracle hf hin
  have hii := init_insert_benign g { st with pendingTrials := st.pendingTrials ++ ts } now
    rows rid rest hg hin hrows hben
  rw [hra]
  exact ⟨rfl, rfl, rfl, hii.1, hii.2.1, hii.2.2.2.2⟩

theorem claim_C2_witness :
    st0.initialized = false ∧ extractId [some "r1"] = some "r1" ∧ benignO benRest ∧
    (runAdds 1 st0 [tT1] "T" []).state = { st0 with pendingTrials := [tT1] } ∧
    (runAdds 1 st0 [tT1] "T" []).trace = [] ∧
    (runAdds 1 st0 [tT1] "T" []).oracle = [] ∧
    attemptsOf (initializeExperiment 4 (runAdds 1 st0 [tT1] "T" []).state [] "T"
        (Resp.insertR none [some "r1"] :: benRest)).trace = [tT1] ∧
    (initializeExperiment 4 (runAdds 1 st0 [tT1] "T" []).state [] "T"
        (Resp.insertR none [some "r1"] :: benRest)).state.pendingTrials = [] ∧
    (initializeExperiment 4 (runAdds 1 st0 [tT1] "T" []).state [] "T"
        (Resp.insertR none [some "r1"] :: benRest)).outcome = Except.ok () :=
  ⟨rfl, rfl, by decide,
    (claim_C2 1 3 st0 [tT1] "T" [] benRest [some "r1"] "r1" (by decide) rfl (by decide)
      rfl (by decide)).1,
    (claim_C2 1 3 st0 [tT1] "T" [] benRest [some "r1"] "r1" (by decide) rfl (by decide)
      rfl (by decide)).2.1,
    (claim_C2 1 3 st0 [tT1] "T" [] benRest [some "r1"] "r1" (by decide) rfl (by decide)
      rfl (by decide)).2.2.1,
    (claim_C2 1 3 st0 [tT1] "T" [] benRest [some "r1"] "r1" (by decide) rfl (by decide)
      rfl (by decide)).2.2.2.1,
    (claim_C2 1 3 st0 [tT1] "T" [] benRest [some "r1"] "r1" (by decide) rfl (by decide)
      rfl (by decide)).2.2.2.2.1,
    (claim_C2 1 3 st0 [tT1] "T" [] benRest [some "r1"] "r1" (by decide) rfl (by decide)
      rfl (by decide)).2.2.2.2.2⟩

/-- Claim C3, counterexample: a trial accepted before the remote identity
is established can be lost.  With one queued trial, the insert succeeds but
the drained fetch fails with a generic error: the operation still resolves,
the queue is empty, no update ever succeeded, and the finish callback
reports zero unprocessed trials, so the entry is neither persisted nor
still present in the queue. -/
theorem claim_C3_counterexample :
    (addTrialData 1 st0 tT1 "T" []).state.pendingTrials = [tT1] ∧
    (addTrialData 1 st0 tT1 "T" []).trace = [] ∧
    (initializeExperiment 5 (addTrialData 1 st0 tT1 "T" []).state [] "T"
        [Resp.insertR none [some "r1"], Resp.selectR (some bErr) []]).outcome =
      Except.ok () ∧
    (initializeExperiment 5 (addTrialData 1 st0 tT1 "T" []).state [] "T"
        [Resp.insertR none [some "r1"], Resp.selectR (some bErr) []]).state.pendingTrials =
      [] ∧
    updOkCount (initializeExperiment 5 (addTrialData 1 st0 tT1 "T" []).state [] "T"
        [Resp.insertR none [some "r1"], Resp.selectR (some bErr) []]).trace = 0 ∧
    createFinishCallback (initializeExperiment 5 (addTrialData 1 st0 tT1 "T" []).state []
        "T" [Resp.insertR none [some "r1"], Resp.selectR (some bErr) []]).state = (1, 0) :=
  ⟨rfl, rfl, rfl, rfl, rfl, rfl⟩

/-- Claim C3, amended: while the remote identity is not established no
accepted entry is lost or duplicated: the queue holds exactly the accepted
entries in order and the finish callback reports their count as
unprocessed.  After a successful insert the queue is drained: each entry is
attempted exactly once in FIFO order and the queue is left empty, so an
entry whose drain attempt fails is dropped with only a logged error — it is
neither persisted nor retained in the queue nor reported at completion. -/
theorem claim_C3 (f g : Nat) (st : SState) (ts : List TrialData) (now : String)
    (oracle rest : List Resp) (rows : List (Option String)) (rid : String)
    (hf : 1 ≤ f) (hin : st.initialized = false)
    (hg : (st.pendingTrials ++ ts).length + 2 ≤ g)
    (hrows : extractId rows = some rid) (hben : benignO rest) :
    (runAdds f st ts now oracle).state.pendingTrials = st.pendingTrials ++ ts ∧
    createFinishCallback (runAdds f st ts now oracle).state =
      (st.numberOfOperations, (st.pendingTrials ++ ts).length) ∧
    attemptsOf (initializeExperiment (g + 1) (runAdds f st ts now oracle).state [] now
        (Resp.insertR none rows :: rest)).trace = st.pendingTrials ++ ts ∧
    createFinishCallback (initializeExperiment (g + 1) (runAdds f st ts now oracle).state []
        now (Resp.insertR none rows :: rest)).state =
      ((initializeExperiment (g + 1) (runAdds f st ts now oracle).state [] now
        (Resp.insertR none rows :: rest)).state.numberOfOperations, 0) := by
  have hra := runAdds_uninit ts f st now oracle hf hin
  have hii := init_insert_benign g { st with pendingTrials := st.pendingTrials ++ ts } now
    rows rid rest hg hin hrows hben
  rw [hra]
  refine ⟨rfl, rfl, hii.1, ?_⟩
  simp [createFinishCallback, getNumberOfOperations, hii.2.1]

theorem claim_C3_witness :
    st0.initialized = false ∧ extractId [some "r1"] = some "r1" ∧ benignO benRest ∧
    (runAdds 1 st0 [tT1] "T" []).state.pendingTrials = [tT1] ∧
    createFinishCallback (runAdds 1 st0 [tT1] "T" []).state = (0, 1) ∧
    attemptsOf (initializeExperiment 4 (runAdds 1 st0 [tT1] "T" []).state [] "T"
        (Resp.insertR none [some "r1"] :: benRest)).trace = [tT1] ∧
    createFinishCallback (initializeExperiment 4 (runAdds 1 st0 [tT1] "T" []).state [] "T"
        (Resp.insertR none [some "r1"] :: benRest)).state =
      ((initializeExperiment 4 (runAdds 1 st0 [tT1] "T" []).state [] "T"
        (Resp.insertR none [some "r1"] :: benRest)).state.numberOfOperations, 0) :=
  ⟨rfl, rfl, by decide,
    (claim_C3 1 3 st0 [tT1] "T" [] benRest [some "r1"] "r1" (by decide) rfl (by decide)
      rfl (by decide)).1,
    (claim_C3 1 3 st0 [tT1] "T" [] benRest [some "r1"] "r1" (by decide) rfl (by decide)
      rfl (by decide)).2.1,
    (claim_C3 1 3 st0 [tT1] "T" [] benRest [some "r1"] "r1" (by decide) rfl (by decide)
      rfl (by decide)).2.2.1,
    (claim_C3 1 3 st0 [tT1] "T" [] benRest [some "r1"] "r1" (by decide) rfl (by decide)
      rfl (by decide)).2.2.2⟩

/-- Claim C4: the operation counter of the row-store manager ends every
initializeExperiment or addTrialData run at its starting value plus the
number of successful insert-with-id and update calls in the trace of that
run, so it increments by exactly one per successful insert or update
(drain-triggered updates included) and by zero on read-only or failed
calls.  In the specified scenario — no fixed id, two addTrialData calls,
then initializeExperiment with an insert returning an id and two
successful drains — the trace holds one insert and two updates carrying
the t1 trial twice in original order, and getNumberOfOperations yields 3. -/
theorem claim_C4 :
    (∀ (f : Nat) (st : SState) (ad : List (String × String)) (now : String) (o : List Resp),
      (initializeExperiment f st ad now o).state.numberOfOperations =
        st.numberOfOperations + succCount (initializeExperiment f st ad now o).trace) ∧
    (∀ (f : Nat) (st : SState) (t : TrialData) (now : String) (o : List Resp),
      (addTrialData f st t now o).state.numberOfOperations =
        st.numberOfOperations + succCount (addTrialData f st t now o).trace) ∧
    getNumberOfOperations (initializeExperiment 5 (runAdds 1 st0 [tT1, tT1] "T" []).state []
      "T" scOracle).state = 3 ∧
    insertCount (initializeExperiment 5 (runAdds 1 st0 [tT1, tT1] "T" []).state [] "T"
      scOracle).trace = 1 ∧
    updateTrialsOf (initializeExperiment 5 (runAdds 1 st0 [tT1, tT1] "T" []).state [] "T"
      scOracle).trace = [[tT1], [tT1, tT1]] ∧
    (initializeExperiment 5 (runAdds 1 st0 [tT1, tT1] "T" []).state [] "T"
      scOracle).outcome = Except.ok () := by
  refine ⟨?_, ?_, rfl, rfl, rfl, rfl⟩
  · intro f st ad now o
    have h := exec_ops f (Call.initC ad) st now o
    simp [callTr, succCount] at h
    simpa [initializeExperiment] using h
  · intro f st t now o
    have h := exec_ops f (Call.addC t) st now o
    simp [callTr, succCount] at h
    simpa [addTrialData] using h

/-- Claim C5: for every TrialData whose reserved no_upload flag is set to
true, the function returned by createDataUpdateCallback — in both the
row-store and the document-store manager — deletes the flag, returns the
flag-free record, and initiates zero remote calls: the state, the oracle
and the trace are untouched. -/
theorem claim_C5 (f : Nat) (st : SState) (fst : Firebase.FState) (now : String)
    (oracle : List Resp) (foracle : List (Option String)) (data : TrialData)
    (h : data.no_upload = some true) :
    createDataUpdateCallback f st now oracle data =
      ({ data with no_upload := none }, ⟨st, [], oracle, Except.ok ()⟩) ∧
    Firebase.createDataUpdateCallback fst foracle data =
      ({ data with no_upload := none }, ⟨fst, [], foracle, Except.ok ()⟩) := by
  constructor
  · simp [createDataUpdateCallback, h]
  · simp [Firebase.createDataUpdateCallback, h]

theorem claim_C5_witness :
    tSkip.no_upload = some true ∧
    createDataUpdateCallback 1 st0 "T" [] tSkip =
      ({ tSkip with no_upload := none }, ⟨st0, [], [], Except.ok ()⟩) ∧
    Firebase.createDataUpdateCallback fSt0 [] tSkip =
      ({ tSkip with no_upload := none }, ⟨fSt0, [], [], Except.ok ()⟩) :=
  ⟨rfl, (claim_C5 1 st0 fSt0 "T" [] [] tSkip rfl).1,
    (claim_C5 1 st0 fSt0 "T" [] [] tSkip rfl).2⟩

/-- Claim C6: on a row-store manager that is READY with a caller-supplied
identifier, initializeExperiment issues exactly one update call and zero
insert calls: the trace is a single update of that row whose payload merges
the metadata with the overrides plus a refreshed updated_at timestamp and
does not carry the trials column; the pending queue is untouched, and on
success the operation counter increments by one. -/
theorem claim_C6 (f : Nat) (st : SState) (ad : List (String × String)) (now : String)
    (oracle : List Resp) (hin : st.initialized = true) (hrow : truthyStr st.rowId = true) :
    (initializeExperiment (f + 1) st ad now oracle).trace =
      [Ev.updateEv (st.rowId.getD "") ⟨spread st.metadata ad, none, some now⟩
        (takeUpdate oracle).1] ∧
    insertCount (initializeExperiment (f + 1) st ad now oracle).trace = 0 ∧
    (initializeExperiment (f + 1) st ad now oracle).state.pendingTrials = st.pendingTrials ∧
    ((takeUpdate oracle).1 = none →
      (initializeExperiment (f + 1) st ad now oracle).state.numberOfOperations =
        st.numberOfOperations + 1) := by
  rcases hu : takeUpdate oracle with ⟨e, o1⟩
  cases e with
  | some err => simp [initializeExperiment, exec, hin, hrow, hu, insertCount]
  | none => simp [initializeExperiment, exec, hin, hrow, hu, insertCount]

theorem claim_C6_witness :
    rSt.initialized = true ∧ truthyStr rSt.rowId = true ∧
    (initializeExperiment 1 rSt [("experiment", "A")] "T" [Resp.updateR none]).trace =
      [Ev.updateEv (rSt.rowId.getD "") ⟨spread rSt.metadata [("experiment", "A")], none,
        some "T"⟩ (takeUpdate [Resp.updateR none]).1] ∧
    insertCount (initializeExperiment 1 rSt [("experiment", "A")] "T"
      [Resp.updateR none]).trace = 0 ∧
    (initializeExperiment 1 rSt [("experiment", "A")] "T"
      [Resp.updateR none]).state.pendingTrials = rSt.pendingTrials ∧
    ((takeUpdate [Resp.updateR none]).1 = none →
      (initializeExperiment 1 rSt [("experiment", "A")] "T"
        [Resp.updateR none]).state.numberOfOperations = rSt.numberOfOperations + 1) :=
  ⟨rfl, rfl,
    (claim_C6 0 rSt [("experiment", "A")] "T" [Resp.updateR none] rfl rfl).1,
    (claim_C6 0 rSt [("experiment", "A")] "T" [Resp.updateR none] rfl rfl).2.1,
    (claim_C6 0 rSt [("experiment", "A")] "T" [Resp.updateR none] rfl rfl).2.2.1,
    (claim_C6 0 rSt [("experiment", "A")] "T" [Resp.updateR none] rfl rfl).2.2.2⟩

/-- Claim C7: when the fetch of a row-store addTrialData call reports the
PGRST116 row-not-found code, the manager clears the stored identifier,
transitions back to the uninitialized state, appends the triggering trial
to the pending queue, and invokes initializeExperiment on that recovered
state: the whole call behaves exactly as that recovery run of
initializeExperiment, its trace prefixed by the attempt and the failed
select, with a rejection of the recovery rethrown wrapped (provided the
recovery rejection is not itself a row-not-found message). -/
theorem claim_C7 (f : Nat) (st : SState) (t : TrialData) (now : String) (e : SbError)
    (fetched : List TrialData) (rest : List Resp)
    (hf : 1 ≤ f) (hin : st.initialized = true) (hrow : truthyStr st.rowId = true)
    (hcode : e.code = "PGRST116")
    (hnf : strIncludes (errMsg (initializeExperiment f (requeued st t) [] now rest).outcome)
      "not found" = false) :
    addTrialData (f + 1) st t now (Resp.selectR (some e) fetched :: rest) =
      ⟨(initializeExperiment f (requeued st t) [] now rest).state,
       Ev.attemptEv t :: Ev.selectEv (st.rowId.getD "") (some e) ::
         (initializeExperiment f (requeued st t) [] now rest).trace,
       (initializeExperiment f (requeued st t) [] now rest).oracle,
       mapStoreErr (initializeExperiment f (requeued st t) [] now rest).outcome⟩ := by
  simp only [initializeExperiment, requeued] at hnf ⊢
  set R := exec f (Call.initC []) { st with initialized := false, rowId := none, pendingTrials := st.pendingTrials ++ [t] } now rest with hR
  simp only [addTrialData, exec, takeSelect]
  rw [← hR]
  simp only [hin, hrow, Bool.not_true, Bool.false_eq_true, if_false]
  have hcode2 : (e.code == "PGRST116") = true := by simp [hcode]
  simp only [hcode2, if_true]
  rcases ho : R.outcome with msg | u
  · rw [ho] at hnf
    simp only [errMsg] at hnf
    obtain ⟨f1, rfl⟩ : ∃ f1, f = f1 + 1 := ⟨f - 1, by omega⟩
    simp [exec, hnf, mapStoreErr, ho]
  · simp [ho, mapStoreErr]

theorem claim_C7_witness :
    rSt.initialized = true ∧ truthyStr rSt.rowId = true ∧ pgErr.code = "PGRST116" ∧
    strIncludes (errMsg (initializeExperiment 4 (requeued rSt tT1) [] "T" recOracle).outcome)
      "not found" = false ∧
    addTrialData 5 rSt tT1 "T" (Resp.selectR (some pgErr) [] :: recOracle) =
      ⟨(initializeExperiment 4 (requeued rSt tT1) [] "T" recOracle).state,
       Ev.attemptEv tT1 :: Ev.selectEv (rSt.rowId.getD "") (some pgErr) ::
         (initializeExperiment 4 (requeued rSt tT1) [] "T" recOracle).trace,
       (initializeExperiment 4 (requeued rSt tT1) [] "T" recOracle).oracle,
       mapStoreErr (initializeExperiment 4 (requeued rSt tT1) [] "T" recOracle).outcome⟩ :=
  ⟨rfl, rfl, rfl, by decide,
   claim_C7 4 rSt tT1 "T" pgErr [] recOracle (by decide) rfl rfl rfl (by decide)⟩

/-- Claim C8: during the drain of the pending queue, a drained entry whose
own trial-add fails with an ordinary (not row-not-found) error is caught
individually: the drain still resolves, every queued entry is attempted
(the drain of subsequent entries is not aborted), and no failed entry is
re-queued — the pending queue, the initialized flag, and the row id are
exactly what they were before the drain. -/
theorem claim_C8 (f : Nat) (st : SState) (ts : List TrialData) (now : String) (o : List Resp)
    (hf : ts.length + 2 ≤ f) (hin : st.initialized = true)
    (hrow : truthyStr st.rowId = true) (hb : benignO o) :
    (drainPendingTrials f st ts now o).outcome = Except.ok () ∧
    attemptsOf (drainPendingTrials f st ts now o).trace = ts ∧
    (drainPendingTrials f st ts now o).state.pendingTrials = st.pendingTrials ∧
    (drainPendingTrials f st ts now o).state.initialized = true ∧
    (drainPendingTrials f st ts now o).state.rowId = st.rowId := by
  have h := drain_benign ts f st now o hf hin hrow hb
  exact ⟨h.2.2.2.2.2.2, h.2.2.2.2.1, h.2.2.1, h.1, h.2.1⟩

theorem claim_C8_witness :
    rSt.initialized = true ∧ truthyStr rSt.rowId = true ∧ benignO c8Oracle ∧
    (drainPendingTrials 4 rSt [tT1, tT2] "T" c8Oracle).outcome = Except.ok () ∧
    attemptsOf (drainPendingTrials 4 rSt [tT1, tT2] "T" c8Oracle).trace = [tT1, tT2] ∧
    (drainPendingTrials 4 rSt [tT1, tT2] "T" c8Oracle).state.pendingTrials =
      rSt.pendingTrials ∧
    (drainPendingTrials 4 rSt [tT1, tT2] "T" c8Oracle).state.initialized = true ∧
    (drainPendingTrials 4 rSt [tT1, tT2] "T" c8Oracle).state.rowId = rSt.rowId :=
  ⟨rfl, rfl, by decide,
   (claim_C8 4 rSt [tT1, tT2] "T" c8Oracle (by decide) rfl rfl (by decide)).1,
   (claim_C8 4 rSt [tT1, tT2] "T" c8Oracle (by decide) rfl rfl (by decide)).2.1,
   (claim_C8 4 rSt [tT1, tT2] "T" c8Oracle (by decide) rfl rfl (by decide)).2.2.1,
   (claim_C8 4 rSt [tT1, tT2] "T" c8Oracle (by decide) rfl rfl (by decide)).2.2.2.1,
   (claim_C8 4 rSt [tT1, tT2] "T" c8Oracle (by decide) rfl rfl (by decide)).2.2.2.2⟩

/-- Claim C9: a direct (awaited) call to initializeExperiment or
addTrialData in which the remote call errors rethrows a failure to its
caller: a failed insert or a failed update makes the row-store
initializeExperiment reject with the underlying message wrapped in
context; a failed setDoc makes the document-store initializeExperiment
reject with its context error; a failed fetch and a failed update of the
trial-add path (outside the row-not-found recovery) make the row-store
addTrialData reject with the underlying message wrapped in context; and a
failed arrayUnion update makes the document-store addTrialData reject with
its context error.  No such error is swallowed. -/
theorem claim_C9 :
    (∀ (f : Nat) (st : SState) (now : String) (e : SbError) (rows : List (Option String))
      (rest : List Resp), st.initialized = false →
      (initializeExperiment (f + 1) st [] now (Resp.insertR (some e) rows :: rest)).outcome =
        Except.error ("Failed to initialize experiment data: " ++ e.message)) ∧
    (∀ (f : Nat) (st : SState) (ad : List (String × String)) (now : String) (e : SbError)
      (rest : List Resp), st.initialized = true → truthyStr st.rowId = true →
      (initializeExperiment (f + 1) st ad now (Resp.updateR (some e) :: rest)).outcome =
        Except.error ("Failed to initialize experiment data: " ++ e.message)) ∧
    (∀ (fst : Firebase.FState) (ad : List (String × String)) (m : String)
      (rest : List (Option String)),
      (Firebase.initializeExperiment fst ad (some m :: rest)).outcome =
        Except.error "Failed to initialize experiment document") ∧
    (∀ (f : Nat) (st : SState) (t : TrialData) (now : String) (e : SbError)
      (fetched : List TrialData) (rest : List Resp),
      st.initialized = true → truthyStr st.rowId = true → benignErr e = true →
      (addTrialData (f + 2) st t now (Resp.selectR (some e) fetched :: rest)).outcome =
        Except.error ("Failed to store trial data: " ++ e.message)) ∧
    (∀ (f : Nat) (st : SState) (t : TrialData) (now : String) (e : SbError)
      (fetched : List TrialData) (rest : List Resp),
      st.initialized = true → truthyStr st.rowId = true → benignErr e = true →
      (addTrialData (f + 2) st t now
        (Resp.selectR none fetched :: Resp.updateR (some e) :: rest)).outcome =
        Except.error ("Failed to store trial data: " ++ e.message)) ∧
    (∀ (fst : Firebase.FState) (t : TrialData) (m : String) (rest : List (Option String)),
      (Firebase.addTrialData fst t (some m :: rest)).outcome =
        Except.error "Failed to store trial data") := by
  refine ⟨?_, ?_, ?_, ?_, ?_, ?_⟩
  · intro f st now e rows rest hin
    simp [initializeExperiment, exec, hin, takeInsert]
  · intro f st ad now e rest hin hrow
    simp [initializeExperiment, exec, hin, hrow, takeUpdate]
  · intro fst ad m rest
    simp [Firebase.initializeExperiment, Firebase.takeF]
  · intro f st t now e fetched rest hin hrow hbe
    simp only [benignErr, Bool.and_eq_true, Bool.not_eq_true'] at hbe
    simp [addTrialData, exec, hin, hrow, takeSelect, hbe.1, hbe.2]
  · intro f st t now e fetched rest hin hrow hbe
    simp only [benignErr, Bool.and_eq_true, Bool.not_eq_true'] at hbe
    simp [addTrialData, exec, hin, hrow, takeSelect, takeUpdate, hbe.2]
  · intro fst t m rest
    simp [Firebase.addTrialData, Firebase.takeF]

theorem claim_C9_witness :
    st0.initialized = false ∧ rSt.initialized = true ∧ truthyStr rSt.rowId = true ∧
    benignErr bErr = true ∧
    (initializeExperiment 1 st0 [] "T" [Resp.insertR (some bErr) []]).outcome =
      Except.error ("Failed to initialize experiment data: " ++ bErr.message) ∧
    (initializeExperiment 1 rSt [] "T" [Resp.updateR (some bErr)]).outcome =
      Except.error ("Failed to initialize experiment data: " ++ bErr.message) ∧
    (Firebase.initializeExperiment fSt0 [] [some "boom"]).outcome =
      Except.error "Failed to initialize experiment document" ∧
    (addTrialData 2 rSt tT1 "T" [Resp.selectR (some bErr) []]).outcome =
      Except.error ("Failed to store trial data: " ++ bErr.message) ∧
    (addTrialData 2 rSt tT1 "T"
      [Resp.selectR none [], Resp.updateR (some bErr)]).outcome =
      Except.error ("Failed to store trial data: " ++ bErr.message) ∧
    (Firebase.addTrialData fSt0 tT1 [some "boom"]).outcome =
      Except.error "Failed to store trial data" :=
  ⟨rfl, rfl, rfl, by decide,
   claim_C9.1 0 st0 "T" bErr [] [] rfl,
   claim_C9.2.1 0 rSt [] "T" bErr [] rfl rfl,
   claim_C9.2.2.1 fSt0 [] "boom" [],
   claim_C9.2.2.2.1 0 rSt tT1 "T" bErr [] [] rfl rfl (by decide),
   claim_C9.2.2.2.2.1 0 rSt tT1 "T" bErr [] [] rfl rfl (by decide),
   claim_C9.2.2.2.2.2 fSt0 tT1 "boom" []⟩

/-- Claim C10: when the row-store insert of initializeExperiment from the
uninitialized state fails, or succeeds without returning a generated
identifier, the operation rejects and the manager state is exactly what it
was: the pending queue keeps its entries in order, the identifier stays
absent, the manager stays uninitialized, and the operation counter is not
incremented; the only remote call issued is the one insert. -/
theorem claim_C10 (f : Nat) (st : SState) (ad : List (String × String)) (now : String)
    (e : Option SbError) (rows : List (Option String)) (rest : List Resp)
    (hin : st.initialized = false) (hrow : st.rowId = none)
    (hbad : e.isSome = true ∨ extractId rows = none) :
    (initializeExperiment (f + 1) st ad now (Resp.insertR e rows :: rest)).state = st ∧
    (initializeExperiment (f + 1) st ad now (Resp.insertR e rows :: rest)).state.rowId =
      none ∧
    (initializeExperiment (f + 1) st ad now
      (Resp.insertR e rows :: rest)).state.numberOfOperations = st.numberOfOperations ∧
    (initializeExperiment (f + 1) st ad now
      (Resp.insertR e rows :: rest)).state.pendingTrials = st.pendingTrials ∧
    (initializeExperiment (f + 1) st ad now (Resp.insertR e rows :: rest)).trace =
      [Ev.insertEv ⟨spread st.metadata ad, some [], none⟩ e false] ∧
    (initializeExperiment (f + 1) st ad now (Resp.insertR e rows :: rest)).oracle = rest ∧
    ∃ m, (initializeExperiment (f + 1) st ad now (Resp.insertR e rows :: rest)).outcome =
      Except.error m := by
  cases e with
  | some err => simp [initializeExperiment, exec, hin, takeInsert, hrow]
  | none =>
    rcases hbad with h | h
    · simp at h
    · simp [initializeExperiment, exec, hin, takeInsert, h, hrow]

theorem claim_C10_witness :
    st0.initialized = false ∧ st0.rowId = none ∧ (some bErr).isSome = true ∧
    (initializeExperiment 1 st0 [] "T" [Resp.insertR (some bErr) [some "r1"]]).state = st0 ∧
    (initializeExperiment 1 st0 [] "T"
      [Resp.insertR (some bErr) [some "r1"]]).state.rowId = none ∧
    (initializeExperiment 1 st0 [] "T"
      [Resp.insertR (some bErr) [some "r1"]]).state.numberOfOperations =
      st0.numberOfOperations ∧
    (initializeExperiment 1 st0 [] "T"
      [Resp.insertR (some bErr) [some "r1"]]).state.pendingTrials = st0.pendingTrials ∧
    (initializeExperiment 1 st0 [] "T" [Resp.insertR (some bErr) [some "r1"]]).trace =
      [Ev.insertEv ⟨spread st0.metadata [], some [], none⟩ (some bErr) false] ∧
    (initializeExperiment 1 st0 [] "T" [Resp.insertR (some bErr) [some "r1"]]).oracle = [] ∧
    ∃ m, (initializeExperiment 1 st0 [] "T"
      [Resp.insertR (some bErr) [some "r1"]]).outcome = Except.error m :=
  ⟨rfl, rfl, rfl,
   (claim_C10 0 st0 [] "T" (some bErr) [some "r1"] [] rfl rfl (Or.inl rfl)).1,
   (claim_C10 0 st0 [] "T" (some bErr) [some "r1"] [] rfl rfl (Or.inl rfl)).2.1,
   (claim_C10 0 st0 [] "T" (some bErr) [some "r1"] [] rfl rfl (Or.inl rfl)).2.2.1,
   (claim_C10 0 st0 [] "T" (some bErr) [some "r1"] [] rfl rfl (Or.inl rfl)).2.2.2.1,
   (claim_C10 0 st0 [] "T" (some bErr) [some "r1"] [] rfl rfl (Or.inl rfl)).2.2.2.2.1,
   (claim_C10 0 st0 [] "T" (some bErr) [some "r1"] [] rfl rfl (Or.inl rfl)).2.2.2.2.2.1,
   (claim_C10 0 st0 [] "T" (some bErr) [some "r1"] [] rfl rfl (Or.inl rfl)).2.2.2.2.2.2⟩
